import Mathlib

/-!
Shallow embedding of the booking/cancellation core of the signupfresh
serverless handler (the `handler` module with CONFIG, rate limiting,
concurrency throttle, cache, validation, and the GET/POST/PATCH branches).

Conventions of the embedding:
* Spreadsheet cells are modelled post-parse: a numeric cell is `Option Int`
  (`none` stands for a missing or non-numeric cell, which the JS reads as
  `parseInt(...) || 0`, i.e. `0`), a text cell is `Option String` (`none`
  stands for a missing cell, JS `undefined`).
* The data region of each sheet starts at sheet row 2 (row 1 holds the
  header); the model stores the data region as a list whose element `i`
  is sheet row `i + 2`.  Sheet rows below 2 are outside the data model
  and read as absent.
* JS strings are modelled with `String`; the JS string methods used by
  the handler (`trim`, `replace(/[<>]/g,'')`, `substring`, `toLowerCase`,
  `startsWith`) are re-implemented over `String.data` with JS semantics.
* The in-memory `Map`s (rate-limit map, active-bookings map) are total
  functions with the JS `get(k) || default` semantics.
* Network I/O: reads are served from the modelled store; the single
  batched write of each branch gets a boolean `writeOk` parameter that
  selects the success path or the `catch` path of the JS `try` block.
-/

namespace SignupFresh

/-! ### CONFIG constants (the `CONFIG` object) -/

def MAX_SLOTS_PER_BOOKING : Nat := 10
def MAX_NAME_LENGTH : Nat := 100
def MAX_EMAIL_LENGTH : Nat := 254
def MAX_PHONE_LENGTH : Nat := 20
def MAX_NOTES_LENGTH : Nat := 500
def MAX_CATEGORY_LENGTH : Nat := 20
def RATE_LIMIT_WINDOW : Int := 60000
def RATE_LIMIT_MAX_REQUESTS : Nat := 50
def CACHE_TTL : Int := 30000
def MAX_CONCURRENT_BOOKINGS : Nat := 3

/-! ### Cell helpers -/

/-- JS `parseInt(cell) || 0` on a post-parse numeric cell. -/
def parseIntOr0 : Option Int → Int
  | none => 0
  | some n => n

/-- JS `String(v)` on a possibly-undefined value (`String(undefined) = "undefined"`). -/
def jsString : Option String → String
  | none => "undefined"
  | some s => s

/-- JS `String.prototype.trim`: strip whitespace from both ends. -/
def trimStr (s : String) : String :=
  ⟨((s.data.dropWhile Char.isWhitespace).reverse.dropWhile Char.isWhitespace).reverse⟩

/-- JS `String.prototype.toLowerCase` (ASCII case fold, sufficient here). -/
def toLowerStr (s : String) : String :=
  ⟨s.data.map Char.toLower⟩

/-- JS `s.startsWith(p)`. -/
def startsWithStr (s p : String) : Bool :=
  p.data.isPrefixOf s.data

/-- JS `(cell || 'ACTIVE')`: a missing or empty status cell counts as ACTIVE. -/
def statusD : Option String → String
  | none => "ACTIVE"
  | some s => if s = "" then "ACTIVE" else s

/-! ### Data model: sheet rows and the store -/

/-- One data row of the Slots sheet (`A2:E`, columns date, label, capacity,
taken, available).  `availableCell` is the stored column E, which the
handler never reads nor writes. -/
structure SlotRow where
  date : Option String
  label : Option String
  capacity : Option Int
  taken : Option Int
  availableCell : Option Int
  deriving Repr, DecidableEq

/-- One data row of the Signups sheet (`A2:J`).  `slotRowId` is the
post-`parseInt` view of column I (`none` for a missing or non-numeric
cell, whose `parseInt` is `NaN` and compares unequal to every id). -/
structure SignupRow where
  timestamp : Option String
  date : Option String
  slotLabel : Option String
  name : Option String
  email : Option String
  phone : Option String
  category : Option String
  notes : Option String
  slotRowId : Option Int
  status : Option String
  deriving Repr, DecidableEq

/-- The external spreadsheet store: the data regions of the two sheets. -/
structure Store where
  slots : List SlotRow
  signups : List SignupRow
  deriving Repr, DecidableEq

/-- Read the slot row at 1-based sheet row `id` (the POST `batchGet` range
`Slots!A{id}:D{id}`); rows outside the data region read as absent. -/
def getSlotRow (store : Store) (id : Int) : Option SlotRow :=
  if id < 2 then none else store.slots.get? (id - 2).toNat

/-- Read the signup row at 1-based sheet row `id` (the PATCH range
`Signups!A{id}:J{id}`). -/
def getSignupRow (store : Store) (id : Int) : Option SignupRow :=
  if id < 2 then none else store.signups.get? (id - 2).toNat

/-- Overwrite the taken cell (column D) of the slot-list element at
list index `k`; out-of-range writes are no-ops. -/
def setTaken : List SlotRow → Nat → Int → List SlotRow
  | [], _, _ => []
  | r :: rs, 0, v => { r with taken := some v } :: rs
  | r :: rs, k + 1, v => r :: setTaken rs k v

/-- Overwrite the status cell (column J) of the signup-list element at
list index `k`. -/
def setStatus : List SignupRow → Nat → String → List SignupRow
  | [], _, _ => []
  | r :: rs, 0, v => { r with status := some v } :: rs
  | r :: rs, k + 1, v => r :: setStatus rs k v

/-! ### GET slot mapping (lines 286-294): row → slot entity -/

/-- The slot entity the listing read builds from one sheet row:
`available` is recomputed as `max(0, capacity - taken)`; the stored
column E (`availableCell`) is not consulted. -/
structure SlotView where
  id : Int
  date : String
  slotLabel : String
  capacity : Int
  taken : Int
  available : Int
  deriving Repr, DecidableEq

def mapSlotRow (idx : Nat) (row : SlotRow) : SlotView :=
  { id := (idx : Int) + 2
    date := (row.date).getD ""
    slotLabel := (row.label).getD ""
    capacity := parseIntOr0 row.capacity
    taken := parseIntOr0 row.taken
    available := max 0 (parseIntOr0 row.capacity - parseIntOr0 row.taken) }

/-! ### Server cache (`cache`, `getCachedSlots`, `setCachedSlots`, `invalidateCache`) -/

/-- The cached availability listing.  Its internal structure (the grouped
`{ok, dates}` object) is irrelevant to the cache logic; the model stores
the mapped slot list. -/
abbrev Listing := List SlotView

structure Cache where
  slots : Option Listing
  timestamp : Int
  deriving Repr, DecidableEq

/-- `invalidateCache()` resets the cache to empty. -/
def emptyCache : Cache := { slots := none, timestamp := 0 }

/-- `getCachedSlots()`: return the stored listing only while fresh. -/
def getCachedSlots (now : Int) (c : Cache) : Option Listing :=
  match c.slots with
  | none => none
  | some d => if now - c.timestamp < CACHE_TTL then some d else none

/-- `setCachedSlots(data)`. -/
def setCachedSlots (now : Int) (data : Listing) : Cache :=
  { slots := some data, timestamp := now }

/-- Result of the cached listing branch of GET (lines 276-308): the body,
the cache afterwards, and whether the store was read. -/
structure GetListingResult where
  body : Listing
  cache : Cache
  readStore : Bool
  deriving Repr, DecidableEq

/-- The listing branch of GET: serve from cache when fresh, otherwise
read the store (the read's mapped result is the `fetched` parameter)
and cache it. -/
def handleGetListing (c : Cache) (now : Int) (fetched : Listing) : GetListingResult :=
  match getCachedSlots now c with
  | some cached => { body := cached, cache := c, readStore := false }
  | none => { body := fetched, cache := setCachedSlots now fetched, readStore := true }

/-! ### Rate limiting (`checkRateLimit`) -/

/-- `checkRateLimit(identifier)` over the rate-limit map (modelled as a
total function with `get(k) || []` semantics): prune stale timestamps,
deny at the ceiling without touching the map, otherwise record `now`. -/
def checkRateLimit (now : Int) (m : String → List Int) (ident : String) :
    Bool × (String → List Int) :=
  let reqs := m ident
  let recent := reqs.filter (fun t => now - t < RATE_LIMIT_WINDOW)
  if RATE_LIMIT_MAX_REQUESTS ≤ recent.length then (false, m)
  else (true, fun q => if q = ident then recent ++ [now] else m q)

/-! ### Concurrency throttle (`activeBookingsMap`) -/

def checkConcurrentBookings (m : String → Nat) (phone : String) : Bool :=
  m phone < MAX_CONCURRENT_BOOKINGS

def incrementActiveBookings (m : String → Nat) (phone : String) : String → Nat :=
  fun q => if q = phone then m phone + 1 else m q

/-- `decrementActiveBookings`: decrement but never below zero (the map is
untouched when the count is already 0). -/
def decrementActiveBookings (m : String → Nat) (phone : String) : String → Nat :=
  if m phone > 0 then (fun q => if q = phone then m phone - 1 else m q) else m

/-! ### Validation & sanitization -/

/-- `sanitizeInput(str, maxLength)`: falsy → `""`; otherwise trim, strip
`<`/`>`, and truncate. -/
def sanitizeInput (v : Option String) (maxLength : Nat) : String :=
  match v with
  | none => ""
  | some s =>
    if s = "" then "" else
    ⟨((trimStr s).data.filter (fun c => !(c = '<' || c = '>'))).take maxLength⟩

/-- A character of the phone regex class `[\d\s\-\+\(\)]`. -/
def isPhoneChar (c : Char) : Bool :=
  c.isDigit || c.isWhitespace || c = '-' || c = '+' || c = '(' || c = ')'

/-- `isValidPhone`: falsy → false; otherwise `/^[\d\s\-\+\(\)]{8,20}$/`. -/
def isValidPhone (s : String) : Bool :=
  if s = "" then false
  else 8 ≤ s.data.length && s.data.length ≤ 20 && s.data.all isPhoneChar

/-- A character of the email regex class `[^\s@]`. -/
def isEmailChar (c : Char) : Bool :=
  !c.isWhitespace && c ≠ '@'

/-- Match `[^\s@]*\.[^\s@]+$` (with backtracking, since `.` itself is in
the class `[^\s@]`). -/
def matchDotTail : List Char → Bool
  | [] => false
  | c :: rest =>
    (c = '.' && !rest.isEmpty && rest.all isEmailChar) ||
    (isEmailChar c && matchDotTail rest)

/-- Match `[^\s@]*@[^\s@]+\.[^\s@]+$` after at least one leading
`[^\s@]` character has been consumed. -/
def matchAtTail : List Char → Bool
  | [] => false
  | c :: rest =>
    (c = '@' && (match rest with
      | [] => false
      | b :: r2 => isEmailChar b && matchDotTail r2)) ||
    (isEmailChar c && matchAtTail rest)

/-- The email regex `/^[^\s@]+@[^\s@]+\.[^\s@]+$/`. -/
def matchesEmailRegex (s : String) : Bool :=
  match s.data with
  | [] => false
  | c :: rest => isEmailChar c && matchAtTail rest

/-- `isValidEmail`: falsy → true (email is optional); otherwise the regex
plus the length cap. -/
def isValidEmail (s : String) : Bool :=
  if s = "" then true
  else matchesEmailRegex s && s.data.length ≤ MAX_EMAIL_LENGTH

/-- The parsed POST body `{name, phone, email?, category, notes?, slotIds}`.
A field is `none` when absent; `slotIds` is `none` when absent or not an
array (slot ids themselves are modelled as integers: a fractional or
non-numeric entry fails `Number.isInteger` just as a non-positive one
fails `id > 0`, and neither kind can reach the booking path). -/
structure BookingBody where
  name : Option String
  phone : Option String
  email : Option String
  category : Option String
  notes : Option String
  slotIds : Option (List Int)
  deriving Repr, DecidableEq

/-- `validateBookingRequest(body)`: collect the error messages in source
order.  The final check `body.slotIds.every(...)` dereferences
`body.slotIds` without a guard, so a missing or non-array `slotIds`
throws a `TypeError` (modelled as `Except.error ()`), which the outer
handler catch turns into a 500 response. -/
def validateBookingRequest (b : BookingBody) : Except Unit (List String) :=
  let nameErrs :=
    if (match b.name with
        | none => true
        | some s => trimStr s = "" || MAX_NAME_LENGTH < s.data.length) then
      ["Name is required (max 100 characters)."] else []
  let phoneErrs :=
    if (match b.phone with
        | none => true
        | some s => trimStr s = "" || !isValidPhone s) then
      ["Valid phone number is required."] else []
  let emailErrs :=
    if (match b.email with
        | none => false
        | some s => s ≠ "" && !isValidEmail s) then
      ["Invalid email address."] else []
  let categoryErrs :=
    if (match b.category with
        | none => true
        | some s => trimStr s = "" || MAX_CATEGORY_LENGTH < s.data.length) then
      ["Valid category selection is required."] else []
  let notesErrs :=
    if (match b.notes with
        | none => false
        | some s => s ≠ "" && MAX_NOTES_LENGTH < s.data.length) then
      ["Notes must be less than 500 characters."] else []
  let arrayErrs :=
    if (match b.slotIds with
        | none => true
        | some l => l.isEmpty) then
      ["At least one slot must be selected."] else []
  let lenErrs :=
    if (match b.slotIds with
        | none => false
        | some l => MAX_SLOTS_PER_BOOKING < l.length) then
      ["Only up to 10 slots allowed."] else []
  match b.slotIds with
  | none => Except.error ()
  | some l =>
    Except.ok (nameErrs ++ phoneErrs ++ emailErrs ++ categoryErrs ++ notesErrs ++
      arrayErrs ++ lenErrs ++
      (if l.all (fun id => 0 < id) then [] else ["Invalid slot IDs provided."]))

/-! ### Responses and server state -/

/-- An HTTP-style JSON response `{ok, error?/message?}` with its status. -/
structure Resp where
  status : Nat
  ok : Bool
  error : Option String
  message : Option String
  deriving Repr, DecidableEq

def respErr (status : Nat) (msg : String) : Resp :=
  { status := status, ok := false, error := some msg, message := none }

def respOk (msg : String) : Resp :=
  { status := 200, ok := true, error := none, message := some msg }

/-- The in-process mutable state the handler touches besides the store:
the cache and the active-bookings map (the rate-limit map gates the
handler before method dispatch and is modelled by `checkRateLimit`). -/
structure ServerState where
  store : Store
  cache : Cache
  active : String → Nat

/-! ### POST: create new booking (lines 317-420) -/

/-- JS `cell?.trim() === phone` on a possibly-missing phone cell
(`undefined === s` is false for every string `s`). -/
def phoneMatches (cell : Option String) (p : String) : Bool :=
  match cell with
  | none => false
  | some s => trimStr s = p

/-- The predicate of the duplicate scan (line 360):
`r[PHONE]?.trim() === phone && parseInt(r[SLOT_ROW_ID]) === slotId &&
(r[STATUS] || 'ACTIVE').startsWith('ACTIVE')`. -/
def isActivePair (r : SignupRow) (phone : String) (slotId : Int) : Bool :=
  phoneMatches r.phone phone &&
  r.slotRowId = some slotId &&
  startsWithStr (statusD r.status) "ACTIVE"

def hasDuplicate (signups : List SignupRow) (phone : String) (slotId : Int) : Bool :=
  signups.any (fun r => isActivePair r phone slotId)

/-- The signup row the booking path appends for one slot.  Every cell is
written as `String(c)`; reading it back yields these post-parse values
(`String(slotId)` re-parses to `slotId` for the validated positive ids). -/
def mkSignupRow (nowStr : String) (row : SlotRow)
    (name email phone category notes : String) (slotId : Int) : SignupRow :=
  { timestamp := some nowStr
    date := some (jsString row.date)
    slotLabel := some (jsString row.label)
    name := some name
    email := some email
    phone := some phone
    category := some category
    notes := some notes
    slotRowId := some slotId
    status := some "ACTIVE" }

/-- The per-slot loop of the POST branch (lines 350-375): for each
requested slot id, in order, read its row, scan for a duplicate, check
capacity, and accumulate the signup row and the `taken+1` directive;
any failure aborts with the corresponding error response. -/
def processSlots (store : Store) (phone name email category notes nowStr : String) :
    List Int → Except Resp (List SignupRow × List (Int × Int))
  | [] => Except.ok ([], [])
  | slotId :: rest =>
    match getSlotRow store slotId with
    | none => Except.error (respErr 400 "Slot data missing.")
    | some row =>
      let capacity := parseIntOr0 row.capacity
      let taken := parseIntOr0 row.taken
      if hasDuplicate store.signups phone slotId then
        Except.error (respErr 409
          ("Already booked " ++ jsString row.label ++ " on " ++ jsString row.date ++ "."))
      else if capacity ≤ taken then
        Except.error (respErr 409
          ("Slot " ++ jsString row.label ++ " on " ++ jsString row.date ++ " is full."))
      else
        match processSlots store phone name email category notes nowStr rest with
        | Except.error e => Except.error e
        | Except.ok (rows, upds) =>
          Except.ok (mkSignupRow nowStr row name email phone category notes slotId :: rows,
            (slotId, taken + 1) :: upds)

/-- Apply the `updateCells` directives of the batched write: each one
overwrites the taken cell (column D) of one slot row.  Ids below the
data region cannot occur in a successful run (`getSlotRow` rejects them
first) and are ignored. -/
def applyTakenUpdates (slots : List SlotRow) : List (Int × Int) → List SlotRow
  | [] => slots
  | (id, v) :: rest =>
    applyTakenUpdates (if id < 2 then slots else setTaken slots (id - 2).toNat v) rest

/-- The whole batched write of the booking path: append the signup rows
and apply the taken updates, as one store call. -/
def applyBookingWrite (store : Store) (rows : List SignupRow)
    (upds : List (Int × Int)) : Store :=
  { slots := applyTakenUpdates store.slots upds
    signups := store.signups ++ rows }

/-- The POST branch (lines 317-420).  `writeOk` selects whether the
batched write succeeds or throws (the `catch` path).  Note that the
early returns inside the `try` block (slot-data-missing, duplicate,
full) return without calling `decrementActiveBookings`. -/
def handlePost (st : ServerState) (b : BookingBody) (nowStr : String) (writeOk : Bool) :
    Resp × ServerState :=
  match validateBookingRequest b with
  | Except.error _ => (respErr 500 "Unexpected server error.", st)
  | Except.ok errors =>
    if errors ≠ [] then (respErr 400 (String.intercalate "; " errors), st)
    else
      let name := sanitizeInput b.name MAX_NAME_LENGTH
      let phone := sanitizeInput b.phone MAX_PHONE_LENGTH
      let email := toLowerStr (sanitizeInput b.email MAX_EMAIL_LENGTH)
      let category := sanitizeInput b.category MAX_CATEGORY_LENGTH
      let notes := sanitizeInput b.notes MAX_NOTES_LENGTH
      match b.slotIds with
      | none => (respErr 500 "Unexpected server error.", st)
      | some slotIds =>
        if !checkConcurrentBookings st.active phone then
          (respErr 429 "Too many concurrent requests. Try again.", st)
        else
          let active1 := incrementActiveBookings st.active phone
          match processSlots st.store phone name email category notes nowStr slotIds with
          | Except.error e => (e, { st with active := active1 })
          | Except.ok (rows, upds) =>
            if writeOk then
              (respOk "Booking successful!",
                { store := applyBookingWrite st.store rows upds
                  cache := emptyCache
                  active := decrementActiveBookings active1 phone })
            else
              (respErr 500 "Booking could not be completed.",
                { st with active := decrementActiveBookings active1 phone })

/-! ### PATCH: cancel booking (lines 425-498) -/

/-- The parsed PATCH body `{signupRowId, slotRowId, phone}`. -/
structure PatchBody where
  signupRowId : Option Int
  slotRowId : Option Int
  phone : Option String
  deriving Repr, DecidableEq

/-- `parseInt(slotResp.data.values?.[0]?.[0] || 0)`: the slot row's
taken cell, 0 when the row or cell is missing. -/
def getTakenCell (store : Store) (slotRowId : Int) : Int :=
  match getSlotRow store slotRowId with
  | none => 0
  | some r => parseIntOr0 r.taken

/-- The batched cancellation write: overwrite the signup row's status
cell with `CANCELLED:<ts>` and the slot row's taken cell with the
decremented value, in one store call. -/
def applyCancelWrite (store : Store) (signupRowId slotRowId : Int)
    (newTaken : Int) (ts : String) : Store :=
  { slots := if slotRowId < 2 then store.slots
             else setTaken store.slots (slotRowId - 2).toNat newTaken
    signups := if signupRowId < 2 then store.signups
               else setStatus store.signups (signupRowId - 2).toNat ("CANCELLED:" ++ ts) }

/-- The PATCH branch (lines 425-498).  `ts` is `new Date().toISOString()`;
`writeOk` selects the success or `catch` path of the batched write. -/
def handlePatch (st : ServerState) (b : PatchBody) (ts : String) (writeOk : Bool) :
    Resp × ServerState :=
  match b.signupRowId, b.slotRowId, b.phone with
  | some signupRowId, some slotRowId, some phone =>
    if signupRowId = 0 || slotRowId = 0 || phone = "" then
      (respErr 400 "Missing cancellation parameters.", st)
    else
      match getSignupRow st.store signupRowId with
      | none => (respErr 404 "Booking not found.", st)
      | some row =>
        if !phoneMatches row.phone phone then
          (respErr 403 "Phone number does not match booking.", st)
        else
          let currentTaken := getTakenCell st.store slotRowId
          let newTaken := max 0 (currentTaken - 1)
          if writeOk then
            (respOk "Booking cancelled successfully.",
              { st with store := applyCancelWrite st.store signupRowId slotRowId newTaken ts
                        cache := emptyCache })
          else
            (respErr 500 "Cancellation failed.", st)
  | _, _, _ => (respErr 400 "Missing cancellation parameters.", st)

/-! ### Invariants of the data model -/

/-- `0 <= taken <= capacity` on the parsed values of every slot data row. -/
def SlotInv (slots : List SlotRow) : Prop :=
  ∀ r ∈ slots, 0 ≤ parseIntOr0 r.taken ∧ parseIntOr0 r.taken ≤ parseIntOr0 r.capacity

instance : DecidablePred SlotInv := fun slots =>
  List.decidableBAll _ slots

/-- At most one ACTIVE signup row per (phone, slotRowId) pair, with the
same row predicate the duplicate scan uses. -/
def ActivePairInv (signups : List SignupRow) : Prop :=
  ∀ (p : String) (sid : Int),
    signups.countP (fun r => isActivePair r p sid) ≤ 1

/-- One requested slot fails its per-slot check: its row is missing, or
the phone already has an ACTIVE signup for it, or it is full. -/
def slotCheckFails (store : Store) (phone : String) (sid : Int) : Prop :=
  getSlotRow store sid = none ∨
  hasDuplicate store.signups phone sid = true ∨
  (∃ row, getSlotRow store sid = some row ∧
    parseIntOr0 row.capacity ≤ parseIntOr0 row.taken)

/-! ### Concrete example data (used to instantiate the theorems) -/

/-- A zero-capacity filler row (sheet rows 2-4 of the examples). -/
def exFiller : SlotRow :=
  { date := some "2026-01-01", label := some "8am", capacity := some 0,
    taken := some 0, availableCell := some 0 }

/-- Sheet row 5: capacity 3, taken 1. -/
def exSlot : SlotRow :=
  { date := some "2026-01-01", label := some "10am-12pm", capacity := some 3,
    taken := some 1, availableCell := some 2 }

/-- Sheet row 5, full: capacity 2, taken 2. -/
def exSlotFull : SlotRow :=
  { date := some "2026-01-01", label := some "10am-12pm", capacity := some 2,
    taken := some 2, availableCell := some 0 }

/-- An ACTIVE signup of phone 5551234567 for slot row 5 (sheet row 2). -/
def exSignupActive : SignupRow :=
  { timestamp := some "t0", date := some "2026-01-01", slotLabel := some "10am-12pm",
    name := some "Bob", email := some "", phone := some "5551234567",
    category := some "General", notes := some "", slotRowId := some 5,
    status := some "ACTIVE" }

/-- A previously cancelled signup of the same phone for slot row 5. -/
def exSignupCancelled : SignupRow :=
  { exSignupActive with status := some "CANCELLED:t1" }

/-- Slot row 5 open, no signups. -/
def storeA : Store :=
  { slots := [exFiller, exFiller, exFiller, exSlot], signups := [] }

/-- Slot row 5 open, one ACTIVE signup for (5551234567, 5). -/
def storeDup : Store :=
  { slots := [exFiller, exFiller, exFiller, exSlot], signups := [exSignupActive] }

/-- Slot row 5 full, no signups. -/
def storeFull : Store :=
  { slots := [exFiller, exFiller, exFiller, exSlotFull], signups := [] }

/-- Slot row 5 open, one cancelled signup at sheet row 2. -/
def storeCancel : Store :=
  { slots := [exFiller, exFiller, exFiller, exSlot], signups := [exSignupCancelled] }

/-- A fresh server state over a given store: empty cache, all in-flight
counters zero. -/
def exState (s : Store) : ServerState :=
  { store := s, cache := emptyCache, active := fun _ => 0 }

/-- A valid booking body requesting slot 5. -/
def bodyOk : BookingBody :=
  { name := some "Bob", phone := some "5551234567", email := none,
    category := some "General", notes := none, slotIds := some [5] }

/-- The same body with the slot id repeated. -/
def bodyRepeat : BookingBody := { bodyOk with slotIds := some [5, 5] }

/-- The same body with `slotIds` absent. -/
def bodyNoSlots : BookingBody := { bodyOk with slotIds := none }

/-- A PATCH body cancelling the signup at sheet row 2 / slot row 5. -/
def patchOk : PatchBody :=
  { signupRowId := some 2, slotRowId := some 5, phone := some "5551234567" }

/-- The same PATCH body with a non-matching phone. -/
def patchMismatch : PatchBody := { patchOk with phone := some "9998887777" }

/-- The same PATCH body aimed at an absent signup row. -/
def patchMissing : PatchBody := { patchOk with signupRowId := some 99 }

/-! ### Helper lemmas about the store primitives -/

theorem setTaken_get? (l : List SlotRow) (k : Nat) (v : Int) (j : Nat) :
    (setTaken l k v).get? j =
      if j = k then (l.get? j).map (fun r => { r with taken := some v })
      else l.get? j := by
  induction l generalizing k j with
  | nil => simp [setTaken]
  | cons r rs ih =>
    cases k with
    | zero =>
      cases j with
      | zero => simp [setTaken]
      | succ j => simp [setTaken]
    | succ k =>
      cases j with
      | zero => simp [setTaken]
      | succ j => simpa [setTaken] using ih k j

theorem setStatus_get? (l : List SignupRow) (k : Nat) (v : String) (j : Nat) :
    (setStatus l k v).get? j =
      if j = k then (l.get? j).map (fun r => { r with status := some v })
      else l.get? j := by
  induction l generalizing k j with
  | nil => simp [setStatus]
  | cons r rs ih =>
    cases k with
    | zero =>
      cases j with
      | zero => simp [setStatus]
      | succ j => simp [setStatus]
    | succ k =>
      cases j with
      | zero => simp [setStatus]
      | succ j => simpa [setStatus] using ih k j

theorem setTaken_length (l : List SlotRow) (k : Nat) (v : Int) :
    (setTaken l k v).length = l.length := by
  induction l generalizing k with
  | nil => rfl
  | cons r rs ih =>
    cases k with
    | zero => simp [setTaken]
    | succ k => simpa [setTaken] using ih k

theorem setStatus_length (l : List SignupRow) (k : Nat) (v : String) :
    (setStatus l k v).length = l.length := by
  induction l generalizing k with
  | nil => rfl
  | cons r rs ih =>
    cases k with
    | zero => simp [setStatus]
    | succ k => simpa [setStatus] using ih k

theorem slotInv_iff_get? (l : List SlotRow) :
    SlotInv l ↔ ∀ (k : Nat) (r : SlotRow), l.get? k = some r →
      0 ≤ parseIntOr0 r.taken ∧ parseIntOr0 r.taken ≤ parseIntOr0 r.capacity := by
  constructor
  · intro h k r hk
    exact h r (List.get?_mem hk)
  · intro h r hr
    obtain ⟨n, hn⟩ := List.get_of_mem hr
    exact h n r (by rw [List.get?_eq_get]; exact congrArg some hn)

/-- A single taken-cell overwrite with a value in `[0, capacity]` of the
targeted row preserves the slot invariant. -/
theorem setTaken_inv {l : List SlotRow} {k : Nat} {v : Int}
    (hinv : SlotInv l)
    (hv : 0 ≤ v)
    (hcap : ∀ r, l.get? k = some r → v ≤ parseIntOr0 r.capacity) :
    SlotInv (setTaken l k v) := by
  rw [slotInv_iff_get?] at hinv ⊢
  intro j r hj
  rw [setTaken_get?] at hj
  by_cases hjk : j = k
  · simp only [hjk, if_pos rfl] at hj
    cases hl : l.get? k with
    | none => rw [hl] at hj; simp at hj
    | some r0 =>
      rw [hl] at hj
      simp only [Option.map_some'] at hj
      cases hj
      exact ⟨hv, hcap r0 hl⟩
  · rw [if_neg hjk] at hj
    exact hinv j r hj

theorem applyTakenUpdates_get?_capacity (upds : List (Int × Int)) (l : List SlotRow)
    (j : Nat) :
    ((applyTakenUpdates l upds).get? j).map SlotRow.capacity =
      (l.get? j).map SlotRow.capacity := by
  induction upds generalizing l with
  | nil => rfl
  | cons u rest ih =>
    obtain ⟨id, v⟩ := u
    rw [applyTakenUpdates]
    rw [ih]
    by_cases h2 : id < 2
    · rw [if_pos h2]
    · rw [if_neg h2, setTaken_get?]
      by_cases hj : j = (id - 2).toNat
      · rw [if_pos hj]
        cases l.get? j <;> rfl
      · rw [if_neg hj]

/-- Applying a list of taken-cell overwrites, each of whose values is
nonnegative and bounded by its target row's capacity in the pre-state,
preserves the slot invariant (capacities are never written, so the
bounds carry through the sequence). -/
theorem applyTakenUpdates_inv {upds : List (Int × Int)} {l : List SlotRow}
    (hinv : SlotInv l)
    (hb : ∀ u ∈ upds, 0 ≤ u.2 ∧
      ∀ r, l.get? (u.1 - 2).toNat = some r → u.2 ≤ parseIntOr0 r.capacity) :
    SlotInv (applyTakenUpdates l upds) := by
  induction upds generalizing l with
  | nil => exact hinv
  | cons u rest ih =>
    obtain ⟨id, v⟩ := u
    rw [applyTakenUpdates]
    by_cases h2 : id < 2
    · rw [if_pos h2]
      exact ih hinv (fun w hw => hb w (List.mem_cons_of_mem _ hw))
    · rw [if_neg h2]
      have hu := hb (id, v) (List.mem_cons_self _ _)
      refine ih (setTaken_inv hinv hu.1 hu.2) (fun w hw => ?_)
      refine ⟨(hb w (List.mem_cons_of_mem _ hw)).1, fun r hr => ?_⟩
      rw [setTaken_get?] at hr
      by_cases hj : (w.1 - 2).toNat = (id - 2).toNat
      · rw [if_pos hj] at hr
        cases hl : l.get? (w.1 - 2).toNat with
        | none => rw [hj, ← hj, hl] at hr; simp at hr
        | some r0 =>
          have := hr
          rw [hj, ← hj, hl] at this
          simp only [Option.map_some'] at this
          cases this
          have := (hb w (List.mem_cons_of_mem _ hw)).2 r0 hl
          simpa using this
      · rw [if_neg hj] at hr
        exact (hb w (List.mem_cons_of_mem _ hw)).2 r hr

/-- Frame of the booking write on the slot sheet: every row is either
untouched or differs only in its taken cell. -/
theorem applyTakenUpdates_frame (upds : List (Int × Int)) (l : List SlotRow) (j : Nat) :
    (applyTakenUpdates l upds).get? j = l.get? j ∨
    ∃ v, (applyTakenUpdates l upds).get? j =
      (l.get? j).map (fun r => { r with taken := some v }) := by
  induction upds generalizing l with
  | nil => exact Or.inl rfl
  | cons u rest ih =>
    obtain ⟨id, v⟩ := u
    rw [applyTakenUpdates]
    by_cases h2 : id < 2
    · rw [if_pos h2]; exact ih l
    · rw [if_neg h2]
      rcases ih (setTaken l (id - 2).toNat v) with h | ⟨w, hw⟩
      · rw [h, setTaken_get?]
        by_cases hj : j = (id - 2).toNat
        · rw [if_pos hj]; exact Or.inr ⟨v, rfl⟩
        · rw [if_neg hj]; exact Or.inl rfl
      · rw [hw, setTaken_get?]
        by_cases hj : j = (id - 2).toNat
        · rw [if_pos hj]
          refine Or.inr ⟨w, ?_⟩
          cases l.get? j <;> rfl
        · rw [if_neg hj]; exact Or.inr ⟨w, rfl⟩

/-! ### Characterization of a successful per-slot loop -/

/-- When the per-slot loop succeeds: no requested slot had a duplicate
ACTIVE signup, and every taken directive targets an existing row with
value `taken + 1` under a strict capacity check (all read from the
pre-state, since the loop performs no writes). -/
theorem processSlots_ok_spec {store : Store}
    {phone name email category notes nowStr : String} {l : List Int}
    {rows : List SignupRow} {upds : List (Int × Int)}
    (h : processSlots store phone name email category notes nowStr l =
      Except.ok (rows, upds)) :
    (∀ sid ∈ l, hasDuplicate store.signups phone sid = false) ∧
    (∀ u ∈ upds, ∃ sr, ¬(u.1 < 2) ∧ getSlotRow store u.1 = some sr ∧
      u.2 = parseIntOr0 sr.taken + 1 ∧
      parseIntOr0 sr.taken < parseIntOr0 sr.capacity) := by
  induction l generalizing rows upds with
  | nil =>
    simp only [processSlots, Except.ok.injEq, Prod.mk.injEq] at h
    obtain ⟨h1, h2⟩ := h
    subst h1; subst h2
    exact ⟨by simp, by simp⟩
  | cons slotId rest ih =>
    rw [processSlots] at h
    cases hrow : getSlotRow store slotId with
    | none => rw [hrow] at h; exact absurd h (by simp)
    | some row =>
      rw [hrow] at h
      simp only at h
      by_cases hdup : hasDuplicate store.signups phone slotId = true
      · rw [if_pos hdup] at h; exact absurd h (by simp)
      · rw [if_neg hdup] at h
        by_cases hfull : parseIntOr0 row.capacity ≤ parseIntOr0 row.taken
        · rw [if_pos hfull] at h; exact absurd h (by simp)
        · rw [if_neg hfull] at h
          cases hrec : processSlots store phone name email category notes nowStr rest with
          | error e => rw [hrec] at h; exact absurd h (by simp)
          | ok pr =>
            obtain ⟨rows', upds'⟩ := pr
            rw [hrec] at h
            simp only [Except.ok.injEq, Prod.mk.injEq] at h
            obtain ⟨h1, h2⟩ := h
            subst h1; subst h2
            obtain ⟨ihd, ihu⟩ := ih hrec
            constructor
            · intro sid hsid
              rcases List.mem_cons.mp hsid with hhd | htl
              · subst hhd; exact Bool.not_eq_true _ ▸ Bool.of_not_eq_true hdup
              · exact ihd sid htl
            · intro u hu
              rcases List.mem_cons.mp hu with hhd | htl
              · subst hhd
                refine ⟨row, ?_, hrow, rfl, Int.not_le.mp hfull⟩
                intro h2lt
                rw [getSlotRow, if_pos h2lt] at hrow
                exact Option.noConfusion hrow
              · exact ihu u htl

/-- The ACTIVE-pair count of the rows a successful per-slot loop appends:
one per occurrence of the slot id in the request, and only for the
(trimmed) booking phone. -/
theorem processSlots_countP {store : Store}
    {phone name email category notes nowStr : String} {l : List Int}
    {rows : List SignupRow} {upds : List (Int × Int)}
    (h : processSlots store phone name email category notes nowStr l =
      Except.ok (rows, upds)) (p : String) (sid : Int) :
    rows.countP (fun r => isActivePair r p sid) =
      if trimStr phone = p then l.countP (fun id => decide (id = sid)) else 0 := by
  induction l generalizing rows upds with
  | nil =>
    simp only [processSlots, Except.ok.injEq, Prod.mk.injEq] at h
    obtain ⟨h1, h2⟩ := h
    subst h1; subst h2
    simp
  | cons slotId rest ih =>
    rw [processSlots] at h
    cases hrow : getSlotRow store slotId with
    | none => rw [hrow] at h; exact absurd h (by simp)
    | some row =>
      rw [hrow] at h
      simp only at h
      by_cases hdup : hasDuplicate store.signups phone slotId = true
      · rw [if_pos hdup] at h; exact absurd h (by simp)
      · rw [if_neg hdup] at h
        by_cases hfull : parseIntOr0 row.capacity ≤ parseIntOr0 row.taken
        · rw [if_pos hfull] at h; exact absurd h (by simp)
        · rw [if_neg hfull] at h
          cases hrec : processSlots store phone name email category notes nowStr rest with
          | error e => rw [hrec] at h; exact absurd h (by simp)
          | ok pr =>
            obtain ⟨rows', upds'⟩ := pr
            rw [hrec] at h
            simp only [Except.ok.injEq, Prod.mk.injEq] at h
            obtain ⟨h1, h2⟩ := h
            subst h1; subst h2
            have hhd : isActivePair
                (mkSignupRow nowStr row name email phone category notes slotId) p sid =
                (decide (trimStr phone = p) && decide (slotId = sid)) := by
              have hact : startsWithStr (statusD (some "ACTIVE")) "ACTIVE" = true := by
                decide
              simp [isActivePair, mkSignupRow, phoneMatches, hact]
            rw [List.countP_cons, List.countP_cons, ih hrec]
            simp only [hhd]
            by_cases hp : trimStr phone = p
            · by_cases hs : slotId = sid
              · rw [if_pos hp, if_pos hp]
                simp only [hp, hs, decide_True, Bool.and_self, if_pos]
              · rw [if_pos hp, if_pos hp]
                have h1 : decide (trimStr phone = p) = true := by simp [hp]
                have h2 : decide (slotId = sid) = false := by simp [hs]
                simp [h1, h2]
            · rw [if_neg hp, if_neg hp]
              have h1 : decide (trimStr phone = p) = false := by simp [hp]
              simp [h1]

/-- Every error response of the per-slot loop carries `ok = false`. -/
theorem processSlots_error_not_ok {store : Store}
    {phone name email category notes nowStr : String} {l : List Int} {e : Resp}
    (h : processSlots store phone name email category notes nowStr l =
      Except.error e) : e.ok = false := by
  induction l with
  | nil => rw [processSlots] at h; exact absurd h (by simp)
  | cons slotId rest ih =>
    rw [processSlots] at h
    cases hrow : getSlotRow store slotId with
    | none =>
      rw [hrow] at h
      simp only [Except.error.injEq] at h
      subst h; rfl
    | some row =>
      rw [hrow] at h
      simp only at h
      by_cases hdup : hasDuplicate store.signups phone slotId = true
      · rw [if_pos hdup] at h
        simp only [Except.error.injEq] at h
        subst h; rfl
      · rw [if_neg hdup] at h
        by_cases hfull : parseIntOr0 row.capacity ≤ parseIntOr0 row.taken
        · rw [if_pos hfull] at h
          simp only [Except.error.injEq] at h
          subst h; rfl
        · rw [if_neg hfull] at h
          cases hrec : processSlots store phone name email category notes nowStr rest with
          | error e' =>
            rw [hrec] at h
            simp only [Except.error.injEq] at h
            subst h; exact ih hrec
          | ok pr =>
            obtain ⟨rows', upds'⟩ := pr
            rw [hrec] at h
            exact absurd h (by simp)

/-- If some requested slot fails its per-slot check, the loop returns an
error (whichever failing slot is reached first in request order). -/
theorem processSlots_error_of_fails {store : Store}
    {phone name email category notes nowStr : String} {l : List Int}
    (hf : ∃ sid ∈ l, slotCheckFails store phone sid) :
    ∃ e, processSlots store phone name email category notes nowStr l =
      Except.error e := by
  induction l with
  | nil => obtain ⟨sid, hmem, _⟩ := hf; exact absurd hmem (by simp)
  | cons a rest ih =>
    rw [processSlots]
    cases hrow : getSlotRow store a with
    | none => exact ⟨_, rfl⟩
    | some row =>
      simp only
      by_cases hdup : hasDuplicate store.signups phone a = true
      · rw [if_pos hdup]; exact ⟨_, rfl⟩
      · rw [if_neg hdup]
        by_cases hfull : parseIntOr0 row.capacity ≤ parseIntOr0 row.taken
        · rw [if_pos hfull]; exact ⟨_, rfl⟩
        · rw [if_neg hfull]
          have hrest : ∃ sid ∈ rest, slotCheckFails store phone sid := by
            obtain ⟨sid, hmem, hfail⟩ := hf
            rcases List.mem_cons.mp hmem with hhd | htl
            · subst hhd
              rcases hfail with hnone | hd | ⟨row', hrow', hfull'⟩
              · rw [hrow] at hnone; exact absurd hnone (by simp)
              · exact absurd hd hdup
              · rw [hrow] at hrow'
                injection hrow' with he
                subst he
                exact absurd hfull' hfull
            · exact ⟨sid, htl, hfail⟩
          obtain ⟨e, he⟩ := ih hrest
          rw [he]
          exact ⟨e, rfl⟩

/-! ### Inversion of the POST branch -/

/-- Inverting a successful POST: the gates passed, the per-slot loop
succeeded, and the new state is the batched write's result with the
cache invalidated. -/
theorem handlePost_ok_inv {st : ServerState} {b : BookingBody} {nowStr : String}
    {w : Bool} {r : Resp} {st' : ServerState}
    (h : handlePost st b nowStr w = (r, st')) (hok : r.ok = true) :
    ∃ slotIds rows upds,
      b.slotIds = some slotIds ∧
      processSlots st.store (sanitizeInput b.phone MAX_PHONE_LENGTH)
        (sanitizeInput b.name MAX_NAME_LENGTH)
        (toLowerStr (sanitizeInput b.email MAX_EMAIL_LENGTH))
        (sanitizeInput b.category MAX_CATEGORY_LENGTH)
        (sanitizeInput b.notes MAX_NOTES_LENGTH) nowStr slotIds =
        Except.ok (rows, upds) ∧
      st'.store = applyBookingWrite st.store rows upds ∧
      st'.cache = emptyCache ∧
      r = respOk "Booking successful!" := by
  rw [handlePost] at h
  cases hv : validateBookingRequest b with
  | error e => rw [hv] at h; cases h; exact absurd hok (by simp [respErr])
  | ok errors =>
    rw [hv] at h
    simp only at h
    by_cases herr : errors ≠ []
    · rw [if_pos herr] at h; cases h; exact absurd hok (by simp [respErr])
    · rw [if_neg herr] at h
      cases hids : b.slotIds with
      | none => rw [hids] at h; cases h; exact absurd hok (by simp [respErr])
      | some slotIds =>
        rw [hids] at h
        simp only at h
        by_cases hcc : (!checkConcurrentBookings st.active
            (sanitizeInput b.phone MAX_PHONE_LENGTH)) = true
        · rw [if_pos hcc] at h; cases h; exact absurd hok (by simp [respErr])
        · rw [if_neg hcc] at h
          cases hps : processSlots st.store (sanitizeInput b.phone MAX_PHONE_LENGTH)
              (sanitizeInput b.name MAX_NAME_LENGTH)
              (toLowerStr (sanitizeInput b.email MAX_EMAIL_LENGTH))
              (sanitizeInput b.category MAX_CATEGORY_LENGTH)
              (sanitizeInput b.notes MAX_NOTES_LENGTH) nowStr slotIds with
          | error e =>
            rw [hps] at h
            simp only at h
            cases h
            exact absurd hok (by simp [processSlots_error_not_ok hps])
          | ok pr =>
            obtain ⟨rows, upds⟩ := pr
            rw [hps] at h
            simp only at h
            cases w with
            | true =>
              rw [if_pos rfl] at h
              cases h
              exact ⟨slotIds, rows, upds, rfl, hps, rfl, rfl, rfl⟩
            | false =>
              rw [if_neg (by simp)] at h
              cases h; exact absurd hok (by simp [respErr])

/-- Every non-OK exit of the POST branch leaves the store and the cache
unchanged (only the active-bookings counter may differ). -/
theorem handlePost_not_ok {st : ServerState} {b : BookingBody} {nowStr : String}
    {w : Bool} {r : Resp} {st' : ServerState}
    (h : handlePost st b nowStr w = (r, st')) (hok : r.ok = false) :
    st'.store = st.store ∧ st'.cache = st.cache := by
  rw [handlePost] at h
  cases hv : validateBookingRequest b with
  | error e => rw [hv] at h; cases h; exact ⟨rfl, rfl⟩
  | ok errors =>
    rw [hv] at h
    simp only at h
    by_cases herr : errors ≠ []
    · rw [if_pos herr] at h; cases h; exact ⟨rfl, rfl⟩
    · rw [if_neg herr] at h
      cases hids : b.slotIds with
      | none => rw [hids] at h; cases h; exact ⟨rfl, rfl⟩
      | some slotIds =>
        rw [hids] at h
        simp only at h
        by_cases hcc : (!checkConcurrentBookings st.active
            (sanitizeInput b.phone MAX_PHONE_LENGTH)) = true
        · rw [if_pos hcc] at h; cases h; exact ⟨rfl, rfl⟩
        · rw [if_neg hcc] at h
          cases hps : processSlots st.store (sanitizeInput b.phone MAX_PHONE_LENGTH)
              (sanitizeInput b.name MAX_NAME_LENGTH)
              (toLowerStr (sanitizeInput b.email MAX_EMAIL_LENGTH))
              (sanitizeInput b.category MAX_CATEGORY_LENGTH)
              (sanitizeInput b.notes MAX_NOTES_LENGTH) nowStr slotIds with
          | error e => rw [hps] at h; simp only at h; cases h; exact ⟨rfl, rfl⟩
          | ok pr =>
            obtain ⟨rows, upds⟩ := pr
            rw [hps] at h
            simp only at h
            cases w with
            | true =>
              rw [if_pos rfl] at h
              cases h
              exact absurd hok (by simp [respOk])
            | false =>
              rw [if_neg (by simp)] at h
              cases h; exact ⟨rfl, rfl⟩

/-! ### Inversion of the PATCH branch -/

/-- Inverting a successful PATCH: the parameters were present, the
signup row exists, its stored phone matches, and the new state is the
batched cancellation write with the cache invalidated. -/
theorem handlePatch_ok_inv {st : ServerState} {b : PatchBody} {ts : String}
    {w : Bool} {r : Resp} {st' : ServerState}
    (h : handlePatch st b ts w = (r, st')) (hok : r.ok = true) :
    ∃ signupRowId slotRowId phone row,
      b.signupRowId = some signupRowId ∧ b.slotRowId = some slotRowId ∧
      b.phone = some phone ∧
      getSignupRow st.store signupRowId = some row ∧
      phoneMatches row.phone phone = true ∧
      st'.store = applyCancelWrite st.store signupRowId slotRowId
        (max 0 (getTakenCell st.store slotRowId - 1)) ts ∧
      st'.cache = emptyCache ∧
      r = respOk "Booking cancelled successfully." := by
  rw [handlePatch] at h
  cases hrid : b.signupRowId with
  | none => rw [hrid] at h; simp only at h; cases h; exact absurd hok (by simp [respErr])
  | some signupRowId =>
  cases hsr : b.slotRowId with
  | none => rw [hrid, hsr] at h; simp only at h; cases h; exact absurd hok (by simp [respErr])
  | some slotRowId =>
  cases hph : b.phone with
  | none =>
    rw [hrid, hsr, hph] at h; simp only at h; cases h
    exact absurd hok (by simp [respErr])
  | some phone =>
    rw [hrid, hsr, hph] at h
    simp only at h
    by_cases hfalsy : (signupRowId = 0 || slotRowId = 0 || phone = "") = true
    · rw [if_pos hfalsy] at h; cases h; exact absurd hok (by simp [respErr])
    · rw [if_neg hfalsy] at h
      cases hrow : getSignupRow st.store signupRowId with
      | none => rw [hrow] at h; simp only at h; cases h; exact absurd hok (by simp [respErr])
      | some row =>
        rw [hrow] at h
        simp only at h
        by_cases hpm : (!phoneMatches row.phone phone) = true
        · rw [if_pos hpm] at h; cases h; exact absurd hok (by simp [respErr])
        · rw [if_neg hpm] at h
          cases w with
          | true =>
            rw [if_pos rfl] at h
            cases h
            exact ⟨signupRowId, slotRowId, phone, row, rfl, rfl, rfl, hrow,
              by simpa using hpm, rfl, rfl, rfl⟩
          | false =>
            rw [if_neg (by simp)] at h
            cases h; exact absurd hok (by simp [respErr])

/-- Every non-OK exit of the PATCH branch leaves the whole server state
unchanged. -/
theorem handlePatch_not_ok {st : ServerState} {b : PatchBody} {ts : String}
    {w : Bool} {r : Resp} {st' : ServerState}
    (h : handlePatch st b ts w = (r, st')) (hok : r.ok = false) :
    st' = st := by
  rw [handlePatch] at h
  cases hrid : b.signupRowId with
  | none => rw [hrid] at h; simp only at h; cases h; rfl
  | some signupRowId =>
  cases hsr : b.slotRowId with
  | none => rw [hrid, hsr] at h; simp only at h; cases h; rfl
  | some slotRowId =>
  cases hph : b.phone with
  | none => rw [hrid, hsr, hph] at h; simp only at h; cases h; rfl
  | some phone =>
    rw [hrid, hsr, hph] at h
    simp only at h
    by_cases hfalsy : (signupRowId = 0 || slotRowId = 0 || phone = "") = true
    · rw [if_pos hfalsy] at h; cases h; rfl
    · rw [if_neg hfalsy] at h
      cases hrow : getSignupRow st.store signupRowId with
      | none => rw [hrow] at h; simp only at h; cases h; rfl
      | some row =>
        rw [hrow] at h
        simp only at h
        by_cases hpm : (!phoneMatches row.phone phone) = true
        · rw [if_pos hpm] at h; cases h; rfl
        · rw [if_neg hpm] at h
          cases w with
          | true =>
            rw [if_pos rfl] at h
            cases h
            exact absurd hok (by simp [respOk])
          | false =>
            rw [if_neg (by simp)] at h
            cases h; rfl

/-! ### Counting helpers -/

theorem nodup_countP_le_one {l : List Int} (h : l.Nodup) (sid : Int) :
    l.countP (fun id => decide (id = sid)) ≤ 1 := by
  induction l with
  | nil => simp
  | cons a rest ih =>
    rw [List.countP_cons]
    rcases List.nodup_cons.mp h with ⟨hna, hrest⟩
    by_cases ha : a = sid
    · subst ha
      have hz : rest.countP (fun id => decide (id = a)) = 0 := by
        rw [List.countP_eq_zero]
        intro x hx
        simp only [decide_eq_true_eq]
        rintro rfl
        exact hna hx
      simp [hz]
    · simp only [ha, decide_False, if_neg]
      simpa using ih hrest

theorem hasDuplicate_false_countP {signups : List SignupRow} {phone : String}
    {sid : Int} (h : hasDuplicate signups phone sid = false) :
    signups.countP (fun r => isActivePair r phone sid) = 0 := by
  rw [List.countP_eq_zero]
  intro a ha
  rw [hasDuplicate, List.any_eq_false] at h
  simpa using h a ha

/-! ### Symbolic execution of a POST whose per-slot loop fails -/

/-- When the gates pass and the per-slot loop fails, the POST branch
returns the loop's error response verbatim, leaves the store and cache
untouched, and (the C1 defect) leaves the in-flight counter incremented. -/
theorem handlePost_error_of_processSlots {st : ServerState} {b : BookingBody}
    {nowStr : String} {w : Bool} {r : Resp} {st' : ServerState}
    {slotIds : List Int} {e : Resp}
    (hids : b.slotIds = some slotIds)
    (hv : validateBookingRequest b = Except.ok [])
    (hcc : checkConcurrentBookings st.active (sanitizeInput b.phone MAX_PHONE_LENGTH) = true)
    (hps : processSlots st.store (sanitizeInput b.phone MAX_PHONE_LENGTH)
      (sanitizeInput b.name MAX_NAME_LENGTH)
      (toLowerStr (sanitizeInput b.email MAX_EMAIL_LENGTH))
      (sanitizeInput b.category MAX_CATEGORY_LENGTH)
      (sanitizeInput b.notes MAX_NOTES_LENGTH) nowStr slotIds = Except.error e)
    (h : handlePost st b nowStr w = (r, st')) :
    r = e ∧
    st' = { st with
            active := incrementActiveBookings st.active
              (sanitizeInput b.phone MAX_PHONE_LENGTH) } := by
  rw [handlePost, hv] at h
  simp only at h
  rw [if_neg (by simp)] at h
  rw [hids] at h
  simp only at h
  rw [if_neg (by simp [hcc])] at h
  rw [hps] at h
  simp only at h
  cases h
  exact ⟨rfl, rfl⟩

/-! ### Claim theorems -/

/-- C1: the spec requires the per-phone in-flight counter to be
decremented on every exit path of the guarded booking attempt.  The code
violates this: at the concrete duplicate-booking input below the POST
branch answers 409, yet the counter that was 0 before the request is
still 1 after the handler returns (the early returns inside the `try`
block skip `decrementActiveBookings`). -/
theorem concurrency_counter_leak_on_conflict :
    (exState storeDup).active "5551234567" = 0 ∧
    (handlePost (exState storeDup) bodyOk "now" true).1.status = 409 ∧
    (handlePost (exState storeDup) bodyOk "now" true).2.active "5551234567" = 1 := by
  refine ⟨rfl, by decide, by decide⟩

/-- C5: the claim says a POST whose body has `slotIds` missing is
answered with a 400 validation response before any throttle or store
access.  The code instead throws a `TypeError` at
`body.slotIds.every(...)` (modelled as `Except.error ()`), which the
outer catch maps to a 500 "Unexpected server error." response; the
store is untouched but the status is 500, not 400. -/
theorem validation_missing_slotIds_crashes :
    validateBookingRequest bodyNoSlots = Except.error () ∧
    handlePost (exState storeA) bodyNoSlots "now" true =
      (respErr 500 "Unexpected server error.", exState storeA) :=
  ⟨rfl, rfl⟩

/-- C6: with ceiling 50 per 60000 ms window, each of the first 50
requests of one identity at time `t` is allowed and recorded; the 51st
within the window is denied and the map (hence the identity's timestamp
list) is unchanged; once the window has elapsed the identity is allowed
again and only the new timestamp is recorded. -/
theorem rate_limit_window (t : Int) (m : String → List Int) (ident : String) :
    (∀ k : Nat, m ident = List.replicate k t → k < RATE_LIMIT_MAX_REQUESTS →
      (checkRateLimit t m ident).1 = true ∧
      (checkRateLimit t m ident).2 ident = List.replicate (k + 1) t) ∧
    (m ident = List.replicate RATE_LIMIT_MAX_REQUESTS t →
      (checkRateLimit t m ident).1 = false ∧
      (checkRateLimit t m ident).2 = m) ∧
    (m ident = List.replicate RATE_LIMIT_MAX_REQUESTS t →
      (checkRateLimit (t + RATE_LIMIT_WINDOW) m ident).1 = true ∧
      (checkRateLimit (t + RATE_LIMIT_WINDOW) m ident).2 ident =
        [t + RATE_LIMIT_WINDOW]) := by
  have hfilt : ∀ k : Nat,
      (List.replicate k t).filter (fun x => decide (t - x < RATE_LIMIT_WINDOW)) =
        List.replicate k t := by
    intro k
    rw [List.filter_eq_self]
    intro a ha
    rw [List.eq_of_mem_replicate ha]
    simp [RATE_LIMIT_WINDOW]
  have hfilt2 :
      (List.replicate RATE_LIMIT_MAX_REQUESTS t).filter
        (fun x => decide (t + RATE_LIMIT_WINDOW - x < RATE_LIMIT_WINDOW)) = [] := by
    rw [List.filter_eq_nil_iff]
    intro a ha
    rw [List.eq_of_mem_replicate ha]
    simp
  refine ⟨?_, ?_, ?_⟩
  · intro k hk hlt
    rw [checkRateLimit]
    simp only [hk, hfilt k, List.length_replicate]
    rw [if_neg (by omega)]
    exact ⟨rfl, by simp [List.replicate_succ']⟩
  · intro hk
    rw [checkRateLimit]
    simp only [hk, hfilt _, List.length_replicate]
    rw [if_pos (le_refl _)]
    exact ⟨rfl, rfl⟩
  · intro hk
    rw [checkRateLimit]
    simp only [hk, hfilt2, List.length_nil]
    rw [if_neg (by simp [RATE_LIMIT_MAX_REQUESTS])]
    exact ⟨rfl, by simp⟩

/-- Witness for C6: the concrete window behaviour at `t = 0` for
identity "ip", using an empty list and a 50-deep list. -/
theorem rate_limit_window_witness :
    ((checkRateLimit 0 (fun _ => ([] : List Int)) "ip").1 = true ∧
      (checkRateLimit 0 (fun _ => ([] : List Int)) "ip").2 "ip" =
        List.replicate 1 (0 : Int)) ∧
    ((checkRateLimit 0 (fun _ => List.replicate 50 (0 : Int)) "ip").1 = false ∧
      (checkRateLimit 0 (fun _ => List.replicate 50 (0 : Int)) "ip").2 =
        (fun _ => List.replicate 50 (0 : Int))) ∧
    ((checkRateLimit (0 + RATE_LIMIT_WINDOW)
        (fun _ => List.replicate 50 (0 : Int)) "ip").1 = true ∧
      (checkRateLimit (0 + RATE_LIMIT_WINDOW)
        (fun _ => List.replicate 50 (0 : Int)) "ip").2 "ip" =
        [0 + RATE_LIMIT_WINDOW]) :=
  ⟨(rate_limit_window 0 (fun _ => ([] : List Int)) "ip").1 0 rfl (by decide),
   (rate_limit_window 0 (fun _ => List.replicate 50 (0 : Int)) "ip").2.1 rfl,
   (rate_limit_window 0 (fun _ => List.replicate 50 (0 : Int)) "ip").2.2 rfl⟩

/-- C9: every successful booking (POST) and every successful
cancellation (PATCH) leaves the slot cache invalidated (set to empty),
so for any `now` the next cache probe misses and the next listing read
goes to the store. -/
theorem cache_invalidated_on_write :
    (∀ st b nowStr w r st', handlePost st b nowStr w = (r, st') → r.ok = true →
      st'.cache = emptyCache ∧ (∀ now, getCachedSlots now st'.cache = none) ∧
      (∀ now fetched, (handleGetListing st'.cache now fetched).readStore = true)) ∧
    (∀ st b ts w r st', handlePatch st b ts w = (r, st') → r.ok = true →
      st'.cache = emptyCache ∧ (∀ now, getCachedSlots now st'.cache = none) ∧
      (∀ now fetched, (handleGetListing st'.cache now fetched).readStore = true)) := by
  constructor
  · intro st b nowStr w r st' h hok
    obtain ⟨_, _, _, _, _, _, hcache, _⟩ := handlePost_ok_inv h hok
    refine ⟨hcache, fun now => ?_, fun now fetched => ?_⟩
    · rw [hcache]; rfl
    · rw [hcache]; rfl
  · intro st b ts w r st' h hok
    obtain ⟨_, _, _, _, _, _, _, _, _, _, hcache, _⟩ := handlePatch_ok_inv h hok
    refine ⟨hcache, fun now => ?_, fun now fetched => ?_⟩
    · rw [hcache]; rfl
    · rw [hcache]; rfl

/-- Witness for C9: a concrete successful booking and a concrete
successful cancellation, both leaving an invalidated cache that the
next listing read (at time 0) bypasses. -/
theorem cache_invalidated_on_write_witness :
    ((handlePost (exState storeA) bodyOk "now" true).2.cache = emptyCache ∧
      getCachedSlots 0
        (handlePost (exState storeA) bodyOk "now" true).2.cache = none ∧
      (handleGetListing
        (handlePost (exState storeA) bodyOk "now" true).2.cache 0
        []).readStore = true) ∧
    ((handlePatch (exState storeCancel) patchOk "ts" true).2.cache = emptyCache ∧
      getCachedSlots 0
        (handlePatch (exState storeCancel) patchOk "ts" true).2.cache = none ∧
      (handleGetListing
        (handlePatch (exState storeCancel) patchOk "ts" true).2.cache 0
        []).readStore = true) :=
  ⟨⟨(cache_invalidated_on_write.1 (exState storeA) bodyOk "now" true _ _ rfl
      (by decide)).1,
    (cache_invalidated_on_write.1 (exState storeA) bodyOk "now" true _ _ rfl
      (by decide)).2.1 0,
    (cache_invalidated_on_write.1 (exState storeA) bodyOk "now" true _ _ rfl
      (by decide)).2.2 0 []⟩,
   ⟨(cache_invalidated_on_write.2 (exState storeCancel) patchOk "ts" true _ _ rfl
      (by decide)).1,
    (cache_invalidated_on_write.2 (exState storeCancel) patchOk "ts" true _ _ rfl
      (by decide)).2.1 0,
    (cache_invalidated_on_write.2 (exState storeCancel) patchOk "ts" true _ _ rfl
      (by decide)).2.2 0 []⟩⟩

/-- C2 counterexample: the at-most-one-ACTIVE-row-per-(phone, slotRowId)
consequence fails as claimed.  From a store satisfying the invariant
(no signups at all), a single sequential booking request with the slot
id repeated (`slotIds: [5, 5]`) succeeds and leaves two ACTIVE signup
rows for the pair ("5551234567", 5): the duplicate scan only inspects
rows that existed before the request. -/
theorem repeated_slotIds_double_booking :
    ActivePairInv storeA.signups ∧
    (handlePost (exState storeA) bodyRepeat "now" true).1.ok = true ∧
    (handlePost (exState storeA) bodyRepeat "now" true).2.store.signups.countP
      (fun r => isActivePair r "5551234567" 5) = 2 :=
  ⟨fun p sid => by simp [storeA], by decide, by decide⟩

/-- C2 (amended): a booking request, some requested slot id of which
already has an ACTIVE signup row with the same (trimmed) phone, is
rejected and performs no store write; when that slot id is the first
requested one and its row exists, the response is specifically 409
naming the conflicting slot.  Consequently — provided the request's
slot ids are distinct (the scan cannot see rows appended by the same
request) and the sanitized phone is trimmed (always true after
validation) — every booking preserves the at-most-one-ACTIVE-row-per-
(phone, slotRowId) invariant. -/
theorem duplicate_booking_rejected_amended :
    (∀ st b nowStr w r st' slotIds sid,
      handlePost st b nowStr w = (r, st') →
      b.slotIds = some slotIds → sid ∈ slotIds →
      hasDuplicate st.store.signups (sanitizeInput b.phone MAX_PHONE_LENGTH) sid =
        true →
      r.ok = false ∧ st'.store = st.store) ∧
    (∀ st b nowStr w r st' sid rest row,
      b.slotIds = some (sid :: rest) →
      validateBookingRequest b = Except.ok [] →
      checkConcurrentBookings st.active (sanitizeInput b.phone MAX_PHONE_LENGTH) =
        true →
      getSlotRow st.store sid = some row →
      hasDuplicate st.store.signups (sanitizeInput b.phone MAX_PHONE_LENGTH) sid =
        true →
      handlePost st b nowStr w = (r, st') →
      r = respErr 409 ("Already booked " ++ jsString row.label ++ " on " ++
        jsString row.date ++ ".") ∧
      st'.store = st.store) ∧
    (∀ st b nowStr w r st' slotIds,
      handlePost st b nowStr w = (r, st') → r.ok = true →
      b.slotIds = some slotIds → slotIds.Nodup →
      trimStr (sanitizeInput b.phone MAX_PHONE_LENGTH) =
        sanitizeInput b.phone MAX_PHONE_LENGTH →
      ActivePairInv st.store.signups → ActivePairInv st'.store.signups) := by
  refine ⟨?_, ?_, ?_⟩
  · intro st b nowStr w r st' slotIds sid h hids hmem hdup
    by_cases hok : r.ok = true
    · obtain ⟨slotIds', rows, upds, hids', hps, _, _, _⟩ := handlePost_ok_inv h hok
      rw [hids] at hids'
      injection hids' with he
      subst he
      have hfd := (processSlots_ok_spec hps).1 sid hmem
      rw [hfd] at hdup
      exact absurd hdup (by simp)
    · have hok' : r.ok = false := by simpa using hok
      exact ⟨hok', (handlePost_not_ok h hok').1⟩
  · intro st b nowStr w r st' sid rest row hids hv hcc hrow hdup h
    have hps : processSlots st.store (sanitizeInput b.phone MAX_PHONE_LENGTH)
        (sanitizeInput b.name MAX_NAME_LENGTH)
        (toLowerStr (sanitizeInput b.email MAX_EMAIL_LENGTH))
        (sanitizeInput b.category MAX_CATEGORY_LENGTH)
        (sanitizeInput b.notes MAX_NOTES_LENGTH) nowStr (sid :: rest) =
        Except.error (respErr 409 ("Already booked " ++ jsString row.label ++
          " on " ++ jsString row.date ++ ".")) := by
      rw [processSlots, hrow]
      simp only
      rw [if_pos hdup]
    obtain ⟨hr, hst⟩ := handlePost_error_of_processSlots hids hv hcc hps h
    exact ⟨hr, by rw [hst]⟩
  · intro st b nowStr w r st' slotIds h hok hids hnd hP hinv
    obtain ⟨slotIds', rows, upds, hids', hps, hstore, _, _⟩ := handlePost_ok_inv h hok
    rw [hids] at hids'
    injection hids' with he
    subst he
    intro p sid
    rw [hstore]
    show (applyBookingWrite st.store rows upds).signups.countP
      (fun r => isActivePair r p sid) ≤ 1
    simp only [applyBookingWrite]
    rw [List.countP_append]
    have hcount := processSlots_countP hps p sid
    by_cases hp : trimStr (sanitizeInput b.phone MAX_PHONE_LENGTH) = p
    · rw [if_pos hp] at hcount
      by_cases hz : slotIds.countP (fun id => decide (id = sid)) = 0
      · rw [hcount, hz]
        have := hinv p sid
        omega
      · have hpos : 0 < slotIds.countP (fun id => decide (id = sid)) :=
          Nat.pos_of_ne_zero hz
        have hmem : sid ∈ slotIds := by
          obtain ⟨a, ha, hpa⟩ := List.countP_pos_iff.mp hpos
          simp only [decide_eq_true_eq] at hpa
          subst hpa
          exact ha
        have hdup := (processSlots_ok_spec hps).1 sid hmem
        have hpeq : p = sanitizeInput b.phone MAX_PHONE_LENGTH := by
          rw [← hp]
          exact hP
        have hold : st.store.signups.countP (fun r => isActivePair r p sid) = 0 := by
          rw [hpeq]
          exact hasDuplicate_false_countP hdup
        have hle := nodup_countP_le_one hnd sid
        rw [hcount]
        omega
    · rw [if_neg hp] at hcount
      rw [hcount]
      have := hinv p sid
      omega

/-- Witness for the amended C2: the duplicate request against an
existing ACTIVE signup is rejected with an untouched store, and a
concrete successful booking preserves the invariant. -/
theorem duplicate_booking_rejected_amended_witness :
    ((handlePost (exState storeDup) bodyOk "now" true).1.ok = false ∧
      (handlePost (exState storeDup) bodyOk "now" true).2.store = storeDup) ∧
    ActivePairInv (handlePost (exState storeA) bodyOk "now" true).2.store.signups :=
  ⟨duplicate_booking_rejected_amended.1 (exState storeDup) bodyOk "now" true
      _ _ [5] 5 rfl rfl (by decide) (by decide),
   duplicate_booking_rejected_amended.2.2 (exState storeA) bodyOk "now" true
      _ _ [5] rfl (by decide) rfl (by decide) (by decide)
      (fun p sid => by simp [exState, storeA])⟩

/-- C3: under sequential execution, every POST (booking) and every
PATCH (cancellation) — in particular every successful one — carries the
slot invariant `0 ≤ taken ≤ capacity` from the pre-state to the
post-state: a booking writes `taken + 1` only after checking
`taken < capacity`, and a cancellation writes `max 0 (taken - 1)`. -/
theorem taken_within_capacity_preserved :
    (∀ st b nowStr w r st',
      handlePost st b nowStr w = (r, st') →
      SlotInv st.store.slots → SlotInv st'.store.slots) ∧
    (∀ st b ts w r st',
      handlePatch st b ts w = (r, st') →
      SlotInv st.store.slots → SlotInv st'.store.slots) := by
  constructor
  · intro st b nowStr w r st' h hinv
    by_cases hok : r.ok = true
    · obtain ⟨slotIds, rows, upds, _, hps, hstore, _, _⟩ := handlePost_ok_inv h hok
      rw [hstore]
      show SlotInv (applyBookingWrite st.store rows upds).slots
      simp only [applyBookingWrite]
      refine applyTakenUpdates_inv hinv (fun u hu => ?_)
      obtain ⟨sr, h2, hget, hval, hlt⟩ := (processSlots_ok_spec hps).2 u hu
      rw [getSlotRow, if_neg h2] at hget
      have hb := (slotInv_iff_get? _).mp hinv _ _ hget
      constructor
      · rw [hval]; omega
      · intro q hq
        rw [hget] at hq
        injection hq with he
        subst he
        rw [hval]; omega
    · have hok' : r.ok = false := by simpa using hok
      rw [(handlePost_not_ok h hok').1]
      exact hinv
  · intro st b ts w r st' h hinv
    by_cases hok : r.ok = true
    · obtain ⟨rid, sr, phone, row, _, _, _, _, _, hstore, _, _⟩ :=
        handlePatch_ok_inv h hok
      rw [hstore]
      show SlotInv (applyCancelWrite st.store rid sr
        (max 0 (getTakenCell st.store sr - 1)) ts).slots
      simp only [applyCancelWrite]
      by_cases h2 : sr < 2
      · rw [if_pos h2]; exact hinv
      · rw [if_neg h2]
        refine setTaken_inv hinv (le_max_left _ _) (fun q hq => ?_)
        have htc : getTakenCell st.store sr = parseIntOr0 q.taken := by
          rw [getTakenCell, getSlotRow, if_neg h2, hq]
        have hb := (slotInv_iff_get? _).mp hinv _ _ hq
        rw [htc, max_le_iff]
        omega
    · rw [handlePatch_not_ok h (by simpa using hok)]
      exact hinv

/-- Witness for C3: the invariant holds after a concrete successful
booking and after a concrete successful cancellation. -/
theorem taken_within_capacity_preserved_witness :
    SlotInv (handlePost (exState storeA) bodyOk "now" true).2.store.slots ∧
    SlotInv (handlePatch (exState storeCancel) patchOk "ts" true).2.store.slots :=
  ⟨taken_within_capacity_preserved.1 (exState storeA) bodyOk "now" true _ _ rfl
      (by decide),
   taken_within_capacity_preserved.2 (exState storeCancel) patchOk "ts" true _ _ rfl
      (by decide)⟩

/-- C4: booking is all-or-nothing across the requested slot set.  When
the gates pass and any requested slot fails its per-slot check, the
request is answered with that check's error response (`ok = false`) and
the store is completely unchanged — no signup row is appended and no
taken cell is written for any slot; in particular a request whose first
slot is full is answered 409 with an error saying the slot is full, with
no write. -/
theorem booking_all_or_nothing :
    (∀ st b nowStr w r st' slotIds,
      handlePost st b nowStr w = (r, st') →
      b.slotIds = some slotIds →
      (∃ sid ∈ slotIds, slotCheckFails st.store
        (sanitizeInput b.phone MAX_PHONE_LENGTH) sid) →
      r.ok = false ∧ st'.store = st.store) ∧
    (∀ st b nowStr w r st' slotIds e,
      handlePost st b nowStr w = (r, st') →
      b.slotIds = some slotIds →
      validateBookingRequest b = Except.ok [] →
      checkConcurrentBookings st.active (sanitizeInput b.phone MAX_PHONE_LENGTH) =
        true →
      processSlots st.store (sanitizeInput b.phone MAX_PHONE_LENGTH)
        (sanitizeInput b.name MAX_NAME_LENGTH)
        (toLowerStr (sanitizeInput b.email MAX_EMAIL_LENGTH))
        (sanitizeInput b.category MAX_CATEGORY_LENGTH)
        (sanitizeInput b.notes MAX_NOTES_LENGTH) nowStr slotIds =
        Except.error e →
      r = e ∧ r.ok = false ∧ st'.store = st.store) ∧
    (∀ st b nowStr w r st' sid rest row,
      b.slotIds = some (sid :: rest) →
      validateBookingRequest b = Except.ok [] →
      checkConcurrentBookings st.active (sanitizeInput b.phone MAX_PHONE_LENGTH) =
        true →
      getSlotRow st.store sid = some row →
      hasDuplicate st.store.signups (sanitizeInput b.phone MAX_PHONE_LENGTH) sid =
        false →
      parseIntOr0 row.capacity ≤ parseIntOr0 row.taken →
      handlePost st b nowStr w = (r, st') →
      r = respErr 409 ("Slot " ++ jsString row.label ++ " on " ++
        jsString row.date ++ " is full.") ∧
      st'.store = st.store) := by
  refine ⟨?_, ?_, ?_⟩
  · intro st b nowStr w r st' slotIds h hids hfail
    by_cases hok : r.ok = true
    · obtain ⟨slotIds', rows, upds, hids', hps, _, _, _⟩ := handlePost_ok_inv h hok
      rw [hids] at hids'
      injection hids' with he
      subst he
      obtain ⟨e, he⟩ := @processSlots_error_of_fails st.store
        (sanitizeInput b.phone MAX_PHONE_LENGTH)
        (sanitizeInput b.name MAX_NAME_LENGTH)
        (toLowerStr (sanitizeInput b.email MAX_EMAIL_LENGTH))
        (sanitizeInput b.category MAX_CATEGORY_LENGTH)
        (sanitizeInput b.notes MAX_NOTES_LENGTH) nowStr slotIds hfail
      rw [hps] at he
      exact absurd he (by simp)
    · have hok' : r.ok = false := by simpa using hok
      exact ⟨hok', (handlePost_not_ok h hok').1⟩
  · intro st b nowStr w r st' slotIds e h hids hv hcc hps
    obtain ⟨hr, hst⟩ := handlePost_error_of_processSlots hids hv hcc hps h
    subst hr
    exact ⟨rfl, processSlots_error_not_ok hps, by rw [hst]⟩
  · intro st b nowStr w r st' sid rest row hids hv hcc hrow hdup hfull h
    have hps : processSlots st.store (sanitizeInput b.phone MAX_PHONE_LENGTH)
        (sanitizeInput b.name MAX_NAME_LENGTH)
        (toLowerStr (sanitizeInput b.email MAX_EMAIL_LENGTH))
        (sanitizeInput b.category MAX_CATEGORY_LENGTH)
        (sanitizeInput b.notes MAX_NOTES_LENGTH) nowStr (sid :: rest) =
        Except.error (respErr 409 ("Slot " ++ jsString row.label ++ " on " ++
          jsString row.date ++ " is full.")) := by
      rw [processSlots, hrow]
      simp only
      rw [if_neg (by simp [hdup]), if_pos hfull]
    obtain ⟨hr, hst⟩ := handlePost_error_of_processSlots hids hv hcc hps h
    exact ⟨hr, by rw [hst]⟩

/-- Witness for C4: booking the concrete full slot 5 (capacity 2,
taken 2) yields 409 "is full" and leaves the store untouched. -/
theorem booking_all_or_nothing_witness :
    (handlePost (exState storeFull) bodyOk "now" true).1 =
      respErr 409 ("Slot " ++ jsString exSlotFull.label ++ " on " ++
        jsString exSlotFull.date ++ " is full.") ∧
    (handlePost (exState storeFull) bodyOk "now" true).2.store = storeFull :=
  booking_all_or_nothing.2.2 (exState storeFull) bodyOk "now" true _ _ 5 [] exSlotFull
    rfl rfl (by decide) rfl (by decide) (by decide) rfl

/-- C7: a PATCH whose signup row exists and whose stored phone matches
the caller's — with no condition on the row's current status, so a
re-cancellation runs too — submits the single batched write: the signup
row's status cell becomes `CANCELLED:<ts>`, the slot row's taken cell
becomes `max 0 (taken - 1)`, and the signup row is not deleted (the
sheet keeps the same number of signup rows). -/
theorem cancellation_write_path {st : ServerState} {b : PatchBody} {ts : String}
    {signupRowId slotRowId : Int} {phone : String} {row : SignupRow} {srow : SlotRow}
    (hrid : b.signupRowId = some signupRowId) (hsr : b.slotRowId = some slotRowId)
    (hph : b.phone = some phone)
    (hfalsy : (signupRowId = 0 || slotRowId = 0 || phone = "") = false)
    (hrow : getSignupRow st.store signupRowId = some row)
    (hpm : phoneMatches row.phone phone = true)
    (hslot : getSlotRow st.store slotRowId = some srow) :
    handlePatch st b ts true =
      (respOk "Booking cancelled successfully.",
        { st with
            store := applyCancelWrite st.store signupRowId slotRowId
              (max 0 (parseIntOr0 srow.taken - 1)) ts
            cache := emptyCache }) ∧
    getSignupRow (handlePatch st b ts true).2.store signupRowId =
      some { row with status := some ("CANCELLED:" ++ ts) } ∧
    getSlotRow (handlePatch st b ts true).2.store slotRowId =
      some { srow with taken := some (max 0 (parseIntOr0 srow.taken - 1)) } ∧
    (handlePatch st b ts true).2.store.signups.length =
      st.store.signups.length := by
  have h2r : ¬ signupRowId < 2 := by
    intro hlt; rw [getSignupRow, if_pos hlt] at hrow; exact Option.noConfusion hrow
  have h2s : ¬ slotRowId < 2 := by
    intro hlt; rw [getSlotRow, if_pos hlt] at hslot; exact Option.noConfusion hslot
  have htaken : getTakenCell st.store slotRowId = parseIntOr0 srow.taken := by
    rw [getTakenCell, hslot]
  have hmain : handlePatch st b ts true =
      (respOk "Booking cancelled successfully.",
        { st with
            store := applyCancelWrite st.store signupRowId slotRowId
              (max 0 (parseIntOr0 srow.taken - 1)) ts
            cache := emptyCache }) := by
    rw [handlePatch, hrid, hsr, hph]
    simp only
    rw [if_neg (by simp [hfalsy]), hrow]
    simp only
    rw [if_neg (by simp [hpm]), if_pos trivial, htaken]
  have hsg : getSignupRow (applyCancelWrite st.store signupRowId slotRowId
      (max 0 (parseIntOr0 srow.taken - 1)) ts) signupRowId =
      some { row with status := some ("CANCELLED:" ++ ts) } := by
    rw [getSignupRow]
    simp only [applyCancelWrite]
    rw [if_neg h2r, if_neg h2r, setStatus_get?, if_pos rfl]
    rw [getSignupRow, if_neg h2r] at hrow
    rw [hrow]
    rfl
  have hsl : getSlotRow (applyCancelWrite st.store signupRowId slotRowId
      (max 0 (parseIntOr0 srow.taken - 1)) ts) slotRowId =
      some { srow with taken := some (max 0 (parseIntOr0 srow.taken - 1)) } := by
    rw [getSlotRow]
    simp only [applyCancelWrite]
    rw [if_neg h2s, if_neg h2s, setTaken_get?, if_pos rfl]
    rw [getSlotRow, if_neg h2s] at hslot
    rw [hslot]
    rfl
  have hlen : (applyCancelWrite st.store signupRowId slotRowId
      (max 0 (parseIntOr0 srow.taken - 1)) ts).signups.length =
      st.store.signups.length := by
    simp only [applyCancelWrite]
    rw [if_neg h2r]
    exact setStatus_length _ _ _
  refine ⟨hmain, ?_, ?_, ?_⟩
  · rw [hmain]; exact hsg
  · rw [hmain]; exact hsl
  · rw [hmain]; exact hlen

/-- Witness for C7: cancelling the concrete (already cancelled!) signup
at sheet row 2 for slot row 5 — the write happens regardless of the
stored status. -/
theorem cancellation_write_path_witness :
    handlePatch (exState storeCancel) patchOk "ts" true =
      (respOk "Booking cancelled successfully.",
        { exState storeCancel with
            store := applyCancelWrite storeCancel 2 5
              (max 0 (parseIntOr0 exSlot.taken - 1)) "ts"
            cache := emptyCache }) ∧
    getSignupRow (handlePatch (exState storeCancel) patchOk "ts" true).2.store 2 =
      some { exSignupCancelled with status := some ("CANCELLED:" ++ "ts") } ∧
    getSlotRow (handlePatch (exState storeCancel) patchOk "ts" true).2.store 5 =
      some { exSlot with taken := some (max 0 (parseIntOr0 exSlot.taken - 1)) } ∧
    (handlePatch (exState storeCancel) patchOk "ts" true).2.store.signups.length =
      storeCancel.signups.length :=
  cancellation_write_path rfl rfl rfl (by decide) rfl (by decide) rfl

/-- C8: a PATCH with present parameters mutates nothing unless it is
authorized: an absent signup row yields 404 with the whole server state
unchanged, and a stored phone that does not match the caller's yields
403 with the whole server state unchanged. -/
theorem cancellation_requires_authorization {st : ServerState} {b : PatchBody}
    {ts : String} {w : Bool} {signupRowId slotRowId : Int} {phone : String}
    (hrid : b.signupRowId = some signupRowId) (hsr : b.slotRowId = some slotRowId)
    (hph : b.phone = some phone)
    (hfalsy : (signupRowId = 0 || slotRowId = 0 || phone = "") = false) :
    (getSignupRow st.store signupRowId = none →
      handlePatch st b ts w = (respErr 404 "Booking not found.", st)) ∧
    (∀ row, getSignupRow st.store signupRowId = some row →
      phoneMatches row.phone phone = false →
      handlePatch st b ts w =
        (respErr 403 "Phone number does not match booking.", st)) := by
  constructor
  · intro hnone
    rw [handlePatch, hrid, hsr, hph]
    simp only
    rw [if_neg (by simp [hfalsy]), hnone]
  · intro row hrow hpm
    rw [handlePatch, hrid, hsr, hph]
    simp only
    rw [if_neg (by simp [hfalsy]), hrow]
    simp only
    rw [if_pos (by simp [hpm])]

/-- Witness for C8: the concrete 404 (absent row 99) and 403 (phone
mismatch) cancellations, both leaving the state untouched. -/
theorem cancellation_requires_authorization_witness :
    handlePatch (exState storeCancel) patchMissing "ts" true =
      (respErr 404 "Booking not found.", exState storeCancel) ∧
    handlePatch (exState storeCancel) patchMismatch "ts" true =
      (respErr 403 "Phone number does not match booking.", exState storeCancel) :=
  ⟨(@cancellation_requires_authorization (exState storeCancel) patchMissing "ts"
      true 99 5 "5551234567" rfl rfl rfl (by decide)).1 rfl,
   (@cancellation_requires_authorization (exState storeCancel) patchMismatch "ts"
      true 2 5 "9998887777" rfl rfl rfl (by decide)).2
     exSignupCancelled rfl (by decide)⟩

/-- C10: a successful booking only appends signup rows and overwrites
taken cells: every slot row is either untouched or changed only in its
taken cell, so its capacity cell and its stored AVAILABLE cell (column
E) survive unchanged; and the listing's per-row mapping computes
`available` as `max 0 (capacity - taken)` without consulting the stored
AVAILABLE column. -/
theorem booking_write_frame :
    (∀ st b nowStr w r st', handlePost st b nowStr w = (r, st') → r.ok = true →
      (∃ newRows, st'.store.signups = st.store.signups ++ newRows) ∧
      (∀ j, st'.store.slots.get? j = st.store.slots.get? j ∨
        ∃ v, st'.store.slots.get? j =
          (st.store.slots.get? j).map (fun q => { q with taken := some v })) ∧
      (∀ j, (st'.store.slots.get? j).map SlotRow.capacity =
        (st.store.slots.get? j).map SlotRow.capacity) ∧
      (∀ j, (st'.store.slots.get? j).map SlotRow.availableCell =
        (st.store.slots.get? j).map SlotRow.availableCell)) ∧
    (∀ (idx : Nat) (q : SlotRow) (v : Option Int),
      mapSlotRow idx { q with availableCell := v } = mapSlotRow idx q) ∧
    (∀ (idx : Nat) (q : SlotRow), (mapSlotRow idx q).available =
      max 0 (parseIntOr0 q.capacity - parseIntOr0 q.taken)) := by
  refine ⟨?_, fun idx q v => rfl, fun idx q => rfl⟩
  intro st b nowStr w r st' h hok
  obtain ⟨slotIds, rows, upds, _, _, hstore, _, _⟩ := handlePost_ok_inv h hok
  rw [hstore]
  simp only [applyBookingWrite]
  refine ⟨⟨rows, rfl⟩, fun j => applyTakenUpdates_frame upds st.store.slots j,
    fun j => applyTakenUpdates_get?_capacity upds _ j, fun j => ?_⟩
  rcases applyTakenUpdates_frame upds st.store.slots j with hfr | ⟨v, hv⟩
  · rw [hfr]
  · rw [hv]; cases st.store.slots.get? j <;> rfl

/-- Witness for C10: after the concrete successful booking, slot row
5's capacity and stored AVAILABLE cells are unchanged, and the listing
mapping ignores the stored AVAILABLE cell. -/
theorem booking_write_frame_witness :
    ((handlePost (exState storeA) bodyOk "now" true).2.store.slots.get? 3).map
      SlotRow.capacity = (storeA.slots.get? 3).map SlotRow.capacity ∧
    ((handlePost (exState storeA) bodyOk "now" true).2.store.slots.get? 3).map
      SlotRow.availableCell = (storeA.slots.get? 3).map SlotRow.availableCell ∧
    mapSlotRow 3 { exSlot with availableCell := some 99 } = mapSlotRow 3 exSlot ∧
    (mapSlotRow 3 exSlot).available =
      max 0 (parseIntOr0 exSlot.capacity - parseIntOr0 exSlot.taken) :=
  ⟨(booking_write_frame.1 (exState storeA) bodyOk "now" true _ _ rfl
      (by decide)).2.2.1 3,
   (booking_write_frame.1 (exState storeA) bodyOk "now" true _ _ rfl
      (by decide)).2.2.2 3,
   booking_write_frame.2.1 3 exSlot (some 99),
   booking_write_frame.2.2 3 exSlot⟩

end SignupFresh
